import Mathlib

/-!
Verification development for the envoy-wasm-poc repository.

The repository ships two proxy-wasm HTTP filters:
the ingress (server-side) filter of `wasm/server-filter/main.go`, which
intercepts inbound requests, extracts the bearer credential, and consults the
policy decision service (PDP) before resuming or terminating the request; and
the egress (client-side) filter, which intercepts outbound requests to
service-b and injects a bearer token obtained from the JWT vending service.

Both filters are embedded here as pure functions from the observable inputs
(request headers, callout outcome) to an explicit list of host effects
(callout dispatches, header mutations, synthesized responses, resume).
Go library behaviour the filters rely on (strings.Split, strings.HasPrefix,
strings.TrimPrefix, encoding/json unmarshalling into the filter structs) is
embedded structurally so that every definition evaluates inside the kernel.
-/

/-- Character-list prefix test, mirroring the definition used by Go
strings.HasPrefix. -/
def listIsPrefixOf : List Char → List Char → Bool
  | [], _ => true
  | _ :: _, [] => false
  | p :: ps, c :: cs => p == c && listIsPrefixOf ps cs

/-- Embedding of Go strings.HasPrefix. -/
def hasPrefixGo (p s : String) : Bool :=
  listIsPrefixOf p.toList s.toList

/-- Embedding of Go strings.TrimPrefix: removes the prefix when present,
returns the string unchanged otherwise. -/
def trimPrefixGo (p s : String) : String :=
  if hasPrefixGo p s then String.mk (s.toList.drop p.toList.length) else s

/-- Worker for `splitGo`: splits at each leftmost occurrence of the
(non-empty) separator. The fuel argument bounds the recursion by the length
of the input so the definition is structurally recursive. -/
def splitGoAux (sep : List Char) : Nat → List Char → List Char → List (List Char)
  | _, [], acc => [acc.reverse]
  | 0, cs, acc => [acc.reverse ++ cs]
  | fuel + 1, c :: rest, acc =>
    if listIsPrefixOf sep (c :: rest) then
      acc.reverse :: splitGoAux sep fuel ((c :: rest).drop sep.length) []
    else
      splitGoAux sep fuel rest (c :: acc)

/-- Embedding of Go strings.Split for a non-empty separator: the input is cut
at every leftmost non-overlapping occurrence of the separator. -/
def splitGo (sep s : String) : List String :=
  if sep.toList = [] then [s]
  else (splitGoAux sep.toList s.toList.length s.toList []).map String.mk

/-- Membership in the URL-safe base64 alphabet of RFC 4648 paragraph 5. -/
def base64urlChar (c : Char) : Bool :=
  c.isAlphanum || c == '-' || c == '_'

/-- Structural decodability of a string under raw (unpadded) base64url, the
encoding JWT payload segments use: every character is in the url-safe
alphabet and the length is not congruent to 1 modulo 4. This definition is
used only to state what the specification means by a decodable payload
segment; the filter source never decodes the payload. -/
def base64urlDecodable (s : String) : Bool :=
  s.toList.all base64urlChar && s.toList.length % 4 != 1

/-- JSON values, the parse result of a syntactically valid response body.
A body that is not syntactically valid JSON is represented as no value at
all (see `CalloutBody`). -/
inductive Json where
  | null
  | bool (b : Bool)
  | num (n : Int)
  | str (s : String)
  | arr (elems : List Json)
  | obj (fields : List (String × Json))

/-- Object-field lookup as performed by Go encoding/json: an exact key match
is preferred, otherwise a case-insensitive match is accepted. -/
def jsonField (fields : List (String × Json)) (name : String) : Option Json :=
  match fields.find? (fun kv => kv.fst == name) with
  | some kv => some kv.snd
  | none => (fields.find? (fun kv => kv.fst.toLower == name.toLower)).map Prod.snd

/-- Unmarshalling of a JSON value into a Go string field: an absent field or
JSON null leaves the zero value, a string is taken as is, any other value is
an unmarshalling error. -/
def jsonStrField (fields : List (String × Json)) (name : String) : Option String :=
  match jsonField fields name with
  | none => some ""
  | some .null => some ""
  | some (.str s) => some s
  | some _ => none

/-- Unmarshalling of a JSON value into a Go int64 field, with the same
absent/null conventions as `jsonStrField`. -/
def jsonIntField (fields : List (String × Json)) (name : String) : Option Int :=
  match jsonField fields name with
  | none => some 0
  | some .null => some 0
  | some (.num n) => some n
  | some _ => none

/-- Decision structure of the server filter: one PDP decision with its
human-readable reason. -/
structure Decision where
  decision : String
  reason : String
deriving DecidableEq

/-- TokenResponse structure of the client filter: the JWT vending service
reply. -/
structure TokenResponse where
  token : String
  expiresIn : Int
deriving DecidableEq

/-- Embedding of json.Unmarshal into the Decision struct. -/
def unmarshalDecision : Json → Option Decision
  | .null => some { decision := "", reason := "" }
  | .obj fields => do
    let d ← jsonStrField fields "decision"
    let r ← jsonStrField fields "reason"
    some { decision := d, reason := r }
  | _ => none

/-- Embedding of json.Unmarshal into the EvaluationResponse struct of the
server filter: the decisions field decodes to a list of Decision values. -/
def unmarshalEvaluationResponse : Json → Option (List Decision)
  | .null => some []
  | .obj fields =>
    match jsonField fields "decisions" with
    | none => some []
    | some .null => some []
    | some (.arr xs) => xs.mapM unmarshalDecision
    | some _ => none
  | _ => none

/-- Embedding of json.Unmarshal into the TokenResponse struct of the client
filter. -/
def unmarshalTokenResponse : Json → Option TokenResponse
  | .null => some { token := "", expiresIn := 0 }
  | .obj fields => do
    let t ← jsonStrField fields "token"
    let e ← jsonIntField fields "expires_in"
    some { token := t, expiresIn := e }
  | _ => none

/-- Outcome of an HTTP callout as observed by the filter callback: either the
response body cannot be read from the host (transport failure, timeout, or a
failed GetHttpCallResponseBody), or the body bytes are available and either
parse as a JSON value or do not. -/
inductive CalloutBody where
  | unreadable
  | readable (body : Option Json)

/-- Payload of a dispatched callout. -/
inductive DispatchBody where
  | evalRequest (principal assetID action : String)
  | rawJson (body : String)
deriving DecidableEq

/-- Host interactions a filter can perform, in the order performed. -/
inductive Effect where
  | sendResponse (status : Nat) (body : String)
  | dispatch (cluster path authority : String) (body : DispatchBody)
  | addHeader (name value : String)
  | replaceHeader (name value : String)
  | resume
deriving DecidableEq

/-- Return value of an OnHttpRequestHeaders handler. -/
inductive FilterAction where
  | Continue
  | Pause
deriving DecidableEq

/-- Dispatch effects are callouts. -/
def isDispatch : Effect → Bool
  | .dispatch _ _ _ _ => true
  | _ => false

/-- Number of callouts dispatched in an effect list. -/
def countDispatch (es : List Effect) : Nat :=
  es.countP isDispatch

/-- Request-header mutations: AddHttpRequestHeader and
ReplaceHttpRequestHeader calls. -/
def isHeaderMutation : Effect → Bool
  | .addHeader _ _ => true
  | .replaceHeader _ _ => true
  | _ => false

/-- Header mutations contained in an effect list. -/
def headerMutations (es : List Effect) : List Effect :=
  es.filter isHeaderMutation

/-- Effects that move the request context to a terminal state of the
interceptor state machine: a synthesized response (Terminated) or a resume
(Resumed). -/
def isTerminalEffect : Effect → Bool
  | .sendResponse _ _ => true
  | .resume => true
  | _ => false

/-- Whether an effect list drives the request context to a terminal state. -/
def reachesTerminal (es : List Effect) : Bool :=
  es.any isTerminalEffect

/-- Inbound request headers as read by the server filter, each absent when
GetHttpRequestHeader fails for that name. -/
structure InboundRequest where
  path : Option String
  method : Option String
  authorization : Option String
  serviceID : Option String
deriving DecidableEq

/-- Result of the server filter header phase: the returned action, the host
effects, and the scratch fields recorded on the context (Go zero value when
never assigned). -/
structure ServerResult where
  action : FilterAction
  effects : List Effect
  principalID : String := ""
  assetID : String := ""
deriving DecidableEq

/-- Body of the 401 responses of sendUnauthorizedResponse, built by
fmt.Sprintf with the message spliced in verbatim. -/
def unauthorizedBody (message : String) : String :=
  "\x7b\"error\":\"" ++ message ++ "\"\x7d"

/-- Body of the 403 responses of sendForbiddenResponse, built by fmt.Sprintf
with the message and the reason spliced in verbatim (no JSON escaping is
applied by the source). -/
def forbiddenBody (message reason : String) : String :=
  "\x7b\"error\":\"" ++ message ++ "\",\"pdp_response\":\x7b\"decision\":\"Deny\",\"reason\":\"" ++ reason ++ "\"\x7d\x7d"

/-- Embedding of extractSubFromPath of the server filter: the path argument
of the Go function is unused; the subject is the X-Service-ID header when
present and non-empty, otherwise the literal "service-a". -/
def extractSubFromPath (serviceID : Option String) : String :=
  match serviceID with
  | some s => if s == "" then "service-a" else s
  | none => "service-a"

/-- Embedding of extractAssetFromPath of the server filter: split the path on
"asset=", take the second piece, and truncate it at the first "&". -/
def extractAssetFromPath (path : String) : String :=
  match splitGo "asset=" path with
  | _ :: asset :: _ => String.mk (asset.toList.takeWhile fun c => c != '&')
  | _ => ""

/-- Cluster name of the PDP callout of the server filter. -/
def pdpServiceCluster : String := "sgnl-pdp-service"

/-- Path of the PDP callout of the server filter. -/
def pdpServicePath : String := "/access/v2/evaluations"

/-- Embedding of OnHttpRequestHeaders of the server filter
(wasm/server-filter/main.go). The dispatchOk flag tells whether the host
accepts the DispatchHttpCall. The json.Marshal error branch of the source is
statically unreachable for the EvaluationRequest struct and has no
counterpart here. parseJWTClaims is inlined: it only checks that the token
has exactly three dot-separated segments and then fabricates a claims map
whose sub entry is extractSubFromPath, which reads the X-Service-ID header;
the payload segment itself is never decoded. -/
def serverOnHttpRequestHeaders (req : InboundRequest) (dispatchOk : Bool) : ServerResult :=
  match req.path with
  | none => { action := .Continue, effects := [] }
  | some path =>
    match req.method with
    | none => { action := .Continue, effects := [] }
    | some _ =>
      match req.authorization with
      | none =>
        { action := .Pause,
          effects := [.sendResponse 401 (unauthorizedBody "Missing Authorization header")] }
      | some authHeader =>
        if authHeader == "" then
          { action := .Pause,
            effects := [.sendResponse 401 (unauthorizedBody "Missing Authorization header")] }
        else if !(hasPrefixGo "Bearer " authHeader) then
          { action := .Pause,
            effects := [.sendResponse 401 (unauthorizedBody "Invalid Authorization header format")] }
        else
          let token := trimPrefixGo "Bearer " authHeader
          if (splitGo "." token).length != 3 then
            { action := .Pause,
              effects := [.sendResponse 401 (unauthorizedBody "Invalid JWT: invalid JWT format")] }
          else
            let sub := extractSubFromPath req.serviceID
            if sub == "" then
              { action := .Pause,
                effects := [.sendResponse 401 (unauthorizedBody "JWT missing \x27sub\x27 claim")] }
            else
              let assetRaw := extractAssetFromPath path
              let assetID := if assetRaw == "" then "default-asset" else assetRaw
              let dispatchEff := Effect.dispatch pdpServiceCluster pdpServicePath
                "sgnl-pdp-service:8082" (.evalRequest sub assetID "call")
              if dispatchOk then
                { action := .Pause, effects := [dispatchEff],
                  principalID := sub, assetID := assetID }
              else
                { action := .Pause,
                  effects := [dispatchEff,
                    .sendResponse 403 (forbiddenBody "Policy evaluation failed" "")],
                  principalID := sub, assetID := assetID }

/-- Embedding of OnHttpCallResponse of the server filter: the callback run
when the PDP callout completes. Its observable inputs are the principalID
recorded on the context and the callout body; it keeps no state of its own
and writes none. -/
def serverOnHttpCallResponse (principalID : String) (resp : CalloutBody) : List Effect :=
  match resp with
  | .unreadable => [.sendResponse 403 (forbiddenBody "Policy evaluation failed" "")]
  | .readable none => [.sendResponse 403 (forbiddenBody "Policy evaluation failed" "")]
  | .readable (some j) =>
    match unmarshalEvaluationResponse j with
    | none => [.sendResponse 403 (forbiddenBody "Policy evaluation failed" "")]
    | some [] => [.sendResponse 403 (forbiddenBody "Policy evaluation failed" "")]
    | some (d :: _) =>
      if d.decision != "Allow" then
        [.sendResponse 403 (forbiddenBody "Access denied by policy" d.reason)]
      else
        [.addHeader "X-PDP-Decision" "Allow",
         .addHeader "X-PDP-Reason" d.reason,
         .addHeader "X-Principal-ID" principalID,
         .resume]

/-- Cluster name of the token callout of the client filter. -/
def jwtVendingServiceCluster : String := "jwt-vending-service"

/-- Path of the token callout of the client filter. -/
def jwtVendingServicePath : String := "/token/valid"

/-- Embedding of OnHttpRequestHeaders of the client filter: requests whose
authority is neither "service-b:8083" nor "service-b" (or whose authority
header cannot be read) pass through untouched; otherwise one callout to the
JWT vending service is dispatched, and on a dispatch error the request
continues without a token. -/
def clientOnHttpRequestHeaders (authority : Option String) (dispatchOk : Bool) :
    FilterAction × List Effect :=
  match authority with
  | none => (.Continue, [])
  | some a =>
    if a != "service-b:8083" && a != "service-b" then (.Continue, [])
    else
      let eff := Effect.dispatch jwtVendingServiceCluster jwtVendingServicePath
        "jwt-vending-service:8081" (.rawJson "\x7b\"service_id\":\"service-a\"\x7d")
      if dispatchOk then (.Pause, [eff]) else (.Continue, [eff])

/-- Embedding of handleJWTResponse of the client filter: the callback run
when the token callout completes. An unreadable body, an unparseable body,
or an empty token field all resume without header mutation; otherwise the
Authorization header is replaced with the Bearer token and the request
resumes. -/
def handleJWTResponse (resp : CalloutBody) : List Effect :=
  match resp with
  | .unreadable => [.resume]
  | .readable none => [.resume]
  | .readable (some j) =>
    match unmarshalTokenResponse j with
    | none => [.resume]
    | some t =>
      if t.token == "" then [.resume]
      else [.replaceHeader "Authorization" ("Bearer " ++ t.token), .resume]

example : extractAssetFromPath "/process?asset=asset-x&b=1" = "asset-x" := by decide
example : extractAssetFromPath "/process" = "" := by decide
example : splitGo "." "a.b.c" = ["a", "b", "c"] := by decide
example : trimPrefixGo "Bearer " "Bearer tok" = "tok" := by decide
example : hasPrefixGo "Bearer " "Basic x" = false := by decide
example : base64urlDecodable "#" = false := by decide

/-- Appending strings is associative; proved on the underlying character
lists. -/
theorem stringAppendAssoc (a b c : String) : a ++ b ++ c = a ++ (b ++ c) := by
  cases a with
  | mk la =>
    cases b with
    | mk lb =>
      cases c with
      | mk lc =>
        show String.mk ((la ++ lb) ++ lc) = String.mk (la ++ (lb ++ lc))
        rw [List.append_assoc]

/-- Character data of an appended string. -/
theorem stringDataAppend (a b : String) : (a ++ b).toList = a.toList ++ b.toList := by
  cases a with
  | mk la =>
    cases b with
    | mk lb => rfl

/-- A character list is a prefix of itself extended by anything. -/
theorem listIsPrefixOf_append (p t : List Char) : listIsPrefixOf p (p ++ t) = true := by
  induction p with
  | nil => rfl
  | cons c cs ih => simp [listIsPrefixOf, ih]

/-- A string is a Go prefix of itself extended by anything. -/
theorem hasPrefixGo_append (p t : String) : hasPrefixGo p (p ++ t) = true := by
  rw [hasPrefixGo, stringDataAppend]
  exact listIsPrefixOf_append p.toList t.toList

/-- The subject fabricated by extractSubFromPath is never empty. -/
theorem extractSubFromPath_ne_empty (os : Option String) :
    (extractSubFromPath os == "") = false := by
  match os with
  | none => rfl
  | some s =>
    by_cases h : s = ""
    · subst h; rfl
    · simp [extractSubFromPath, h]

/-- C6: an inbound request whose Authorization header is missing, or present
but not of Bearer shape, is terminated with a 401 synthesized response while
the request stays paused, and no callout is dispatched to the PDP. The
request carries a :path and a :method, as every HTTP request handed to the
filter by Envoy does. -/
theorem c6_missing_or_malformed_credential (p m : String) (oa os : Option String) (d : Bool)
    (ha : oa = none ∨ ∃ a, oa = some a ∧ hasPrefixGo "Bearer " a = false) :
    ((serverOnHttpRequestHeaders ⟨some p, some m, oa, os⟩ d).effects =
        [.sendResponse 401 (unauthorizedBody "Missing Authorization header")] ∨
      (serverOnHttpRequestHeaders ⟨some p, some m, oa, os⟩ d).effects =
        [.sendResponse 401 (unauthorizedBody "Invalid Authorization header format")]) ∧
    countDispatch (serverOnHttpRequestHeaders ⟨some p, some m, oa, os⟩ d).effects = 0 ∧
    (serverOnHttpRequestHeaders ⟨some p, some m, oa, os⟩ d).action = .Pause := by
  rcases ha with h | ⟨a, ha, hpre⟩
  · subst h
    exact ⟨Or.inl rfl, rfl, rfl⟩
  · subst ha
    by_cases hae : a = ""
    · subst hae
      exact ⟨Or.inl rfl, rfl, rfl⟩
    · have hb : (a == "") = false := by simp [hae]
      simp [serverOnHttpRequestHeaders, hb, hpre, countDispatch, isDispatch]

/-- C6 witness: the borderline request with no Authorization header at all is
rejected with a 401 and dispatches nothing. -/
theorem c6_witness :
    ((serverOnHttpRequestHeaders ⟨some "/process", some "GET", none, none⟩ true).effects =
        [.sendResponse 401 (unauthorizedBody "Missing Authorization header")] ∨
      (serverOnHttpRequestHeaders ⟨some "/process", some "GET", none, none⟩ true).effects =
        [.sendResponse 401 (unauthorizedBody "Invalid Authorization header format")]) ∧
    countDispatch (serverOnHttpRequestHeaders ⟨some "/process", some "GET", none, none⟩ true).effects = 0 ∧
    (serverOnHttpRequestHeaders ⟨some "/process", some "GET", none, none⟩ true).action = .Pause :=
  c6_missing_or_malformed_credential "/process" "GET" none none true (Or.inl rfl)

/-- C8: an outbound request whose authority matches neither form of the
designated service-b target passes through with no dispatch and no header
mutation. -/
theorem c8_nondesignated_passthrough (a : String) (d : Bool)
    (h1 : a ≠ "service-b:8083") (h2 : a ≠ "service-b") :
    clientOnHttpRequestHeaders (some a) d = (.Continue, []) ∧
    countDispatch (clientOnHttpRequestHeaders (some a) d).2 = 0 ∧
    headerMutations (clientOnHttpRequestHeaders (some a) d).2 = [] := by
  have hb : (a != "service-b:8083" && a != "service-b") = true := by
    simp [h1, h2]
  simp [clientOnHttpRequestHeaders, hb, countDispatch, headerMutations]

/-- C8 witness: a request towards service-c passes through untouched. -/
theorem c8_witness :
    clientOnHttpRequestHeaders (some "service-c") true = (.Continue, []) ∧
    countDispatch (clientOnHttpRequestHeaders (some "service-c") true).2 = 0 ∧
    headerMutations (clientOnHttpRequestHeaders (some "service-c") true).2 = [] :=
  c8_nondesignated_passthrough "service-c" true (by decide) (by decide)

/-- Failure modes of the token issuance callout: unreadable body, body that
is not JSON, body whose unmarshalling errors, or a parsed body with an empty
token field. -/
def issuanceFailed (resp : CalloutBody) : Prop :=
  resp = .unreadable ∨ resp = .readable none ∨
  ∃ j, resp = .readable (some j) ∧
    (unmarshalTokenResponse j = none ∨
     ∃ t, unmarshalTokenResponse j = some t ∧ t.token = "")

/-- C9: every issuance failure makes the client filter resume the request
with no header mutation and no synthesized response (fail-open). -/
theorem c9_issuance_failure_fail_open (resp : CalloutBody) (h : issuanceFailed resp) :
    handleJWTResponse resp = [.resume] := by
  rcases h with h | h | ⟨j, hj, h⟩
  · subst h; rfl
  · subst h; rfl
  · subst hj
    rcases h with h | ⟨t, ht, htok⟩
    · simp [handleJWTResponse, h]
    · simp [handleJWTResponse, ht, htok]

/-- C9 witness: an unreadable issuance response resumes the request as the
only effect. -/
theorem c9_witness : handleJWTResponse .unreadable = [Effect.resume] :=
  c9_issuance_failure_fail_open .unreadable (Or.inl rfl)

/-- C10: each filter dispatches at most one callout per intercepted request,
and only from the header phase: the header handlers emit at most one
dispatch effect and the callout callbacks emit none, so a context never has
two outstanding callouts. -/
theorem c10_at_most_one_dispatch :
    (∀ req d, countDispatch (serverOnHttpRequestHeaders req d).effects ≤ 1) ∧
    (∀ p resp, countDispatch (serverOnHttpCallResponse p resp) = 0) ∧
    (∀ auth d, countDispatch (clientOnHttpRequestHeaders auth d).2 ≤ 1) ∧
    (∀ resp, countDispatch (handleJWTResponse resp) = 0) := by
  refine ⟨?_, ?_, ?_, ?_⟩
  · intro req d
    obtain ⟨op, om, oa, os⟩ := req
    simp only [serverOnHttpRequestHeaders]
    repeat' split
    all_goals simp [countDispatch, isDispatch, List.countP_cons, List.countP_nil]
  · intro p resp
    simp only [serverOnHttpCallResponse]
    repeat' split
    all_goals simp [countDispatch, isDispatch, List.countP_cons, List.countP_nil]
  · intro auth d
    simp only [clientOnHttpRequestHeaders]
    repeat' split
    all_goals simp [countDispatch, isDispatch, List.countP_cons, List.countP_nil]
  · intro resp
    simp only [handleJWTResponse]
    repeat' split
    all_goals simp [countDispatch, isDispatch, List.countP_cons, List.countP_nil]

/-- C2 (amended): the PDP callout callback of the server filter keeps no
terminal-state flag, so every delivery — including a re-delivery of the same
callback to a context that is already terminal — re-executes the handler in
full and again performs a terminal host action (a synthesized response or a
resume). At-most-once delivery is a guarantee of the host runtime, not of
the filter. -/
theorem c2_redelivery_reexecutes_handler (p : String) (resp : CalloutBody) :
    reachesTerminal (serverOnHttpCallResponse p resp) = true := by
  simp only [serverOnHttpCallResponse]
  repeat' split
  all_goals simp [reachesTerminal, isTerminalEffect, List.any_cons, List.any_nil]

/-- Callout body carrying one Deny decision with reason "no access". -/
def denyCallout : CalloutBody :=
  .readable (some (.obj [("decisions",
    .arr [.obj [("decision", .str "Deny"), ("reason", .str "no access")]])]))

/-- C2 counterexample: a Deny callback leaves the context Terminated (a 403
response is sent), yet delivering the very same callback again evaluates the
same handler on the same inputs — the filter stores nothing that could
distinguish the second delivery — and emits the same 403 send once more
instead of being a no-op. -/
theorem c2_counterexample :
    reachesTerminal (serverOnHttpCallResponse "service-a" denyCallout) = true ∧
    serverOnHttpCallResponse "service-a" denyCallout =
      [.sendResponse 403 (forbiddenBody "Access denied by policy" "no access")] := by
  decide

/-- Failure modes of the policy evaluation callout: unreadable body
(transport failure or timeout surface this way), body that is not JSON, body
whose unmarshalling errors, or an empty decision batch. -/
def policyEvalFailed (resp : CalloutBody) : Prop :=
  resp = .unreadable ∨ resp = .readable none ∨
  ∃ j, resp = .readable (some j) ∧
    (unmarshalEvaluationResponse j = none ∨ unmarshalEvaluationResponse j = some [])

/-- C5: every policy evaluation failure terminates the request with the same
403 response whose error message is "Policy evaluation failed", whatever the
root cause, and a failed dispatch of the callout itself ends in the
identical 403 (fail-closed, never pass-through). -/
theorem c5_policy_eval_fail_closed :
    (∀ p resp, policyEvalFailed resp →
        serverOnHttpCallResponse p resp =
          [.sendResponse 403 (forbiddenBody "Policy evaluation failed" "")]) ∧
    (∀ p m a os, hasPrefixGo "Bearer " a = true →
        (splitGo "." (trimPrefixGo "Bearer " a)).length = 3 →
        (serverOnHttpRequestHeaders ⟨some p, some m, some a, os⟩ false).effects.getLast? =
          some (.sendResponse 403 (forbiddenBody "Policy evaluation failed" ""))) := by
  constructor
  · intro p resp h
    rcases h with h | h | ⟨j, hj, h⟩
    · subst h; rfl
    · subst h; rfl
    · subst hj
      rcases h with h | h
      · simp [serverOnHttpCallResponse, h]
      · simp [serverOnHttpCallResponse, h]
  · intro p m a os hpre h3
    have hane : (a == "") = false := by
      cases hb : (a == "") with
      | false => rfl
      | true =>
        have ha : a = "" := eq_of_beq hb
        subst ha
        exact absurd hpre (by decide)
    have hsplit : ((splitGo "." (trimPrefixGo "Bearer " a)).length != 3) = false := by
      simp [h3]
    have hsub := extractSubFromPath_ne_empty os
    simp [serverOnHttpRequestHeaders, hane, hpre, hsplit, hsub]

/-- C5 witness: an unreadable PDP response and a failed dispatch both end in
the identical 403 with message "Policy evaluation failed". -/
theorem c5_witness :
    serverOnHttpCallResponse "service-a" .unreadable =
      [.sendResponse 403 (forbiddenBody "Policy evaluation failed" "")] ∧
    (serverOnHttpRequestHeaders ⟨some "/p", some "GET", some "Bearer a.b.c", none⟩ false).effects.getLast? =
      some (.sendResponse 403 (forbiddenBody "Policy evaluation failed" "")) :=
  ⟨c5_policy_eval_fail_closed.1 "service-a" .unreadable (Or.inl rfl),
   c5_policy_eval_fail_closed.2 "/p" "GET" "Bearer a.b.c" none (by decide) (by decide)⟩

/-- Fixed part of the deny body that precedes the spliced reason. -/
def forbiddenDenyPrefix : String :=
  "\x7b\"error\":\"" ++ "Access denied by policy" ++ "\",\"pdp_response\":\x7b\"decision\":\"Deny\",\"reason\":\""

/-- C3: when the first decision of the parsed PDP response is Deny, the
request is terminated with a 403 whose body splices the PDP reason string
verbatim into the pdp_response.reason position: the body is exactly the
fixed prefix, then the reason unchanged, then the closing characters. -/
theorem c3_deny_reason_verbatim (p r : String) (j : Json) (rest : List Decision)
    (h : unmarshalEvaluationResponse j = some ({ decision := "Deny", reason := r } :: rest)) :
    serverOnHttpCallResponse p (.readable (some j)) =
      [.sendResponse 403 (forbiddenBody "Access denied by policy" r)] ∧
    forbiddenBody "Access denied by policy" r = forbiddenDenyPrefix ++ (r ++ "\"\x7d\x7d") := by
  constructor
  · simp [serverOnHttpCallResponse, h]
  · simp [forbiddenBody, forbiddenDenyPrefix, stringAppendAssoc]

/-- Callout body carrying one Deny decision with the reason the in-repo PDP
emits for service-a and asset-y. -/
def denyJson : Json :=
  .obj [("decisions", .arr [.obj [("decision", .str "Deny"),
    ("reason", .str "Service service-a is not allowed to access asset-y")]])]

/-- C3 witness: the asset-y denial of the demo produces the 403 body with
the PDP reason spliced verbatim. -/
theorem c3_witness :
    serverOnHttpCallResponse "service-a" (.readable (some denyJson)) =
      [.sendResponse 403 (forbiddenBody "Access denied by policy"
        "Service service-a is not allowed to access asset-y")] ∧
    forbiddenBody "Access denied by policy" "Service service-a is not allowed to access asset-y" =
      forbiddenDenyPrefix ++ ("Service service-a is not allowed to access asset-y" ++ "\"\x7d\x7d") :=
  c3_deny_reason_verbatim "service-a" "Service service-a is not allowed to access asset-y"
    denyJson [] (by decide)

/-- C4: when the first decision of the parsed PDP response is Allow, the
server filter adds the decision, reason and principal headers, with the
decision header value equal to Allow, and resumes the request; no
synthesized response is sent. -/
theorem c4_allow_resumes_with_decision_headers (p r : String) (j : Json) (rest : List Decision)
    (h : unmarshalEvaluationResponse j = some ({ decision := "Allow", reason := r } :: rest)) :
    serverOnHttpCallResponse p (.readable (some j)) =
      [.addHeader "X-PDP-Decision" "Allow",
       .addHeader "X-PDP-Reason" r,
       .addHeader "X-Principal-ID" p,
       .resume] := by
  simp [serverOnHttpCallResponse, h]

/-- Callout body carrying one Allow decision. -/
def allowJson : Json :=
  .obj [("decisions", .arr [.obj [("decision", .str "Allow"),
    ("reason", .str "Service service-a is allowed to access asset-x")]])]

/-- C4 witness: the asset-x approval of the demo resumes the request with
the three decision headers attached. -/
theorem c4_witness :
    serverOnHttpCallResponse "service-a" (.readable (some allowJson)) =
      [.addHeader "X-PDP-Decision" "Allow",
       .addHeader "X-PDP-Reason" "Service service-a is allowed to access asset-x",
       .addHeader "X-Principal-ID" "service-a",
       .resume] :=
  c4_allow_resumes_with_decision_headers "service-a"
    "Service service-a is allowed to access asset-x" allowJson [] (by decide)

/-- A string carrying the Bearer prefix is not empty. -/
theorem bearer_prefixed_ne_empty (a : String) (hpre : hasPrefixGo "Bearer " a = true) :
    (a == "") = false := by
  cases hb : (a == "") with
  | false => rfl
  | true =>
    have ha : a = "" := eq_of_beq hb
    subst ha
    exact absurd hpre (by decide)

/-- C1 (amended): the only structural check the server filter performs on the
token is that it splits into exactly three dot-separated segments; such a
failure is terminated with a 401 and zero PDP dispatches. The payload
segment is never decoded: for every three-segment token the principal is
whatever extractSubFromPath fabricates from the X-Service-ID header, with
the default "service-a". -/
theorem c1_segment_gate_and_header_principal (p m a : String) (os : Option String) (d : Bool)
    (hpre : hasPrefixGo "Bearer " a = true) :
    ((splitGo "." (trimPrefixGo "Bearer " a)).length ≠ 3 →
      (serverOnHttpRequestHeaders ⟨some p, some m, some a, os⟩ d).effects =
        [.sendResponse 401 (unauthorizedBody "Invalid JWT: invalid JWT format")] ∧
      countDispatch (serverOnHttpRequestHeaders ⟨some p, some m, some a, os⟩ d).effects = 0) ∧
    ((splitGo "." (trimPrefixGo "Bearer " a)).length = 3 →
      (serverOnHttpRequestHeaders ⟨some p, some m, some a, os⟩ d).principalID =
        extractSubFromPath os) := by
  have hane := bearer_prefixed_ne_empty a hpre
  constructor
  · intro h3
    have hsplit : ((splitGo "." (trimPrefixGo "Bearer " a)).length != 3) = true :=
      bne_iff_ne.mpr h3
    simp [serverOnHttpRequestHeaders, hane, hpre, hsplit, countDispatch, isDispatch]
  · intro h3
    have hsplit : ((splitGo "." (trimPrefixGo "Bearer " a)).length != 3) = false := by
      simp [h3]
    have hsub := extractSubFromPath_ne_empty os
    cases d <;> simp [serverOnHttpRequestHeaders, hane, hpre, hsplit, hsub]

/-- C1 counterexample: a Bearer token whose payload segment is the single
character "#", which is not base64url-decodable, is nevertheless accepted by
the filter: it dispatches the PDP callout (principal fabricated as
"service-a" from the header fallback) and sends no 401 — refuting both the
decode-the-payload reading and the decode-failure-means-401 reading of the
claim. -/
theorem c1_counterexample :
    base64urlDecodable "#" = false ∧
    serverOnHttpRequestHeaders ⟨some "/process", some "GET", some "Bearer h.#.s", none⟩ true =
      { action := .Pause,
        effects := [.dispatch "sgnl-pdp-service" "/access/v2/evaluations" "sgnl-pdp-service:8082"
          (.evalRequest "service-a" "default-asset" "call")],
        principalID := "service-a", assetID := "default-asset" } := by
  decide

/-- C1 witness: a two-segment token is rejected with the invalid-format 401
and nothing is dispatched. -/
theorem c1_witness :
    (serverOnHttpRequestHeaders ⟨some "/p", some "GET", some "Bearer h.p", none⟩ true).effects =
      [.sendResponse 401 (unauthorizedBody "Invalid JWT: invalid JWT format")] ∧
    countDispatch (serverOnHttpRequestHeaders ⟨some "/p", some "GET", some "Bearer h.p", none⟩ true).effects = 0 :=
  (c1_segment_gate_and_header_principal "/p" "GET" "Bearer h.p" none true (by decide)).1 (by decide)

/-- Header mutations the egress filter is allowed: a replacement of the
Authorization header with a Bearer value. -/
def isAuthBearerSet : Effect → Bool
  | .replaceHeader n v => n == "Authorization" && hasPrefixGo "Bearer " v
  | _ => false

/-- C7: when the token response parses with a non-empty token the client
filter performs exactly one header mutation — replacing Authorization with
"Bearer " followed by the token, character for character — and resumes; and
on every path of the client filter, header phase included, every header
mutation is such an Authorization replacement. -/
theorem c7_authorization_only_mutation :
    (∀ j t, unmarshalTokenResponse j = some t → t.token ≠ "" →
        handleJWTResponse (.readable (some j)) =
          [.replaceHeader "Authorization" ("Bearer " ++ t.token), .resume]) ∧
    (∀ resp, (headerMutations (handleJWTResponse resp)).all isAuthBearerSet = true) ∧
    (∀ auth d, headerMutations (clientOnHttpRequestHeaders auth d).2 = []) := by
  refine ⟨?_, ?_, ?_⟩
  · intro j t hj ht
    have htok : (t.token == "") = false := by simp [ht]
    simp [handleJWTResponse, hj, htok]
  · intro resp
    simp only [handleJWTResponse]
    repeat' split
    all_goals simp [headerMutations, isHeaderMutation, isAuthBearerSet, hasPrefixGo_append,
      List.filter, List.all_cons, List.all_nil]
  · intro auth d
    match auth with
    | none => rfl
    | some a =>
      simp only [clientOnHttpRequestHeaders]
      repeat' split
      all_goals simp [headerMutations, isHeaderMutation]

/-- Token response body of the JWT vending service used as witness input. -/
def tokenJson : Json := .obj [("token", .str "tok123"), ("expires_in", .num 300)]

/-- C7 witness: a parsed token response with token "tok123" yields exactly
the Authorization replacement and a resume. -/
theorem c7_witness :
    handleJWTResponse (.readable (some tokenJson)) =
      [.replaceHeader "Authorization" ("Bearer " ++ "tok123"), .resume] :=
  c7_authorization_only_mutation.1 tokenJson { token := "tok123", expiresIn := 300 }
    (by decide) (by decide)
